import Mathlib

/-!
Verification of the import reconciliation engine of the
nexus-ai-chat-importer repository (branch filter_and_select).

The definitions below are shallow embeddings of the TypeScript source:
  * `src/services/import-service.ts` (zip validation, archive extraction,
    summary building, provider-match validation, report path generation),
  * `src/ui/pre-import-selection-modal.ts` (selection state),
  * `src/services/materialised-store.ts` (materialization records),
with JavaScript values modelled by an inductive `Json` type, JS exceptions
by `Except`/`Option`, JS `Set`s by `Finset String`, and the external
`JSON.parse` capability by an abstract `String → Option Json` parameter.
Components that the design documents describe but whose code is not part
of the sources (the NEW/UPDATE/SKIP classifier of the conversation
processor, the identity-resolver fallback hash, the exclusion pass of the
selection modal) are modelled from the specification text and marked as
such in their doc comments.
-/

namespace Nexus

/-- Model of a JavaScript/JSON value as produced by `JSON.parse`. -/
inductive Json where
  | null : Json
  | bool : Bool → Json
  | num : Int → Json
  | str : String → Json
  | arr : List Json → Json
  | obj : List (String × Json) → Json
  deriving Repr

/-- Field lookup on a JS value: `v[k]`, `undefined` (`none`) when the value
is not an object or lacks the field. -/
def Json.lookupField : Json → String → Option Json
  | Json.obj fs, k => List.lookup k fs
  | _, _ => none

/-- JavaScript truthiness of a value. -/
def Json.truthy : Json → Bool
  | Json.null => false
  | Json.bool b => b
  | Json.num n => n != 0
  | Json.str s => s ≠ ""
  | Json.arr _ => true
  | Json.obj _ => true

/-- `v?.k` is present and truthy (the way `parsed?.mapping && …` tests it). -/
def Json.fieldTruthy (j : Json) (k : String) : Bool :=
  match j.lookupField k with
  | some v => v.truthy
  | none => false

/-- `v.k !== undefined`: the field is present, whatever its value. -/
def Json.hasField (j : Json) (k : String) : Bool :=
  (j.lookupField k).isSome

/-- `Array.isArray(v?.k)`: the field is present and array-valued. -/
def Json.arrayField (j : Json) (k : String) : Option (List Json) :=
  match j.lookupField k with
  | some (Json.arr xs) => some xs
  | _ => none

/-- Is the value a JS object (not `null`, not an array)? -/
def Json.isObj : Json → Bool
  | Json.obj _ => true
  | _ => false

/-- `text.split(/\r?\n/).map(l => l.trim()).filter(l => l.length > 0)`:
the non-blank trimmed lines of a text (`trim` also removes a trailing
`\r`, so splitting on `\n` alone is faithful). -/
def nonBlankLines (text : String) : List String :=
  ((text.splitOn "\n").map String.trim).filter (fun l => l ≠ "")

/-- Embedding of `extractRawConversationsFromZip`'s body once the text of
the located `conversations.json` entry is in hand
(`src/services/import-service.ts`, strict-JSON branch then JSONL
fallback).  `parse` stands for the external `JSON.parse`, returning
`none` where `JSON.parse` throws. -/
def extractRawConversationsFromText (parse : String → Option Json)
    (text : String) : List Json :=
  match parse text with
  | some parsed =>
    match parsed with
    | Json.arr xs => xs
    | _ =>
      match parsed.arrayField "conversations" with
      | some xs => xs
      | none =>
        match parsed.arrayField "data" with
        | some xs => xs
        | none =>
          if parsed.fieldTruthy "mapping" &&
              (parsed.fieldTruthy "id" || parsed.fieldTruthy "conversation_id") then
            [parsed]
          else
            []
  | none =>
    let convos := (nonBlankLines text).filterMap parse
    convos

/-- The regex `/(^|\/)conversations\.json$/i` applied to one entry path:
lowercased, the path is `conversations.json` exactly or ends with
`/conversations.json` (character-list operations keep this kernel-
evaluable). -/
def convoKeyMatches (k : String) : Bool :=
  let l := k.data.map Char.toLower
  l == "conversations.json".data ||
    "/conversations.json".data.isSuffixOf l

/-- `keys.find(k => /(^|\/)conversations\.json$/i.test(k))`. -/
def findConversationsKey (keys : List String) : Option String :=
  keys.find? convoKeyMatches

/-- Full embedding of `extractRawConversationsFromZip`: the zip is a list
of (entry name, text) pairs. -/
def extractRawConversationsFromZip (parse : String → Option Json)
    (entries : List (String × String)) : List Json :=
  match findConversationsKey (entries.map Prod.fst) with
  | none => []
  | some key =>
    match List.lookup key entries with
    | none => []
    | some text => extractRawConversationsFromText parse text

/-- The record-sequence resolution order exactly as the specification words
it (§4.1 steps 2–3): "has a `mapping` field and an `id` or
`conversation_id` field" read as field *presence*. -/
def extractRecordsSpec (parse : String → Option Json)
    (text : String) : List Json :=
  match parse text with
  | some parsed =>
    match parsed with
    | Json.arr xs => xs
    | _ =>
      match parsed.arrayField "conversations" with
      | some xs => xs
      | none =>
        match parsed.arrayField "data" with
        | some xs => xs
        | none =>
          if parsed.hasField "mapping" &&
              (parsed.hasField "id" || parsed.hasField "conversation_id") then
            [parsed]
          else
            []
  | none => (nonBlankLines text).filterMap parse

/-- The resolution order with the single-object fallback amended to demand
*truthy* `mapping` and `id`/`conversation_id` values, as the code tests
them. -/
def extractRecordsSpecAmended (parse : String → Option Json)
    (text : String) : List Json :=
  match parse text with
  | some parsed =>
    match parsed with
    | Json.arr xs => xs
    | _ =>
      match parsed.arrayField "conversations" with
      | some xs => xs
      | none =>
        match parsed.arrayField "data" with
        | some xs => xs
        | none =>
          if parsed.fieldTruthy "mapping" &&
              (parsed.fieldTruthy "id" || parsed.fieldTruthy "conversation_id") then
            [parsed]
          else
            []
  | none => (nonBlankLines text).filterMap parse

/-- A concrete fragment of the external `JSON.parse` oracle, recording its
(undisputed) value on the one byte sequence used as counterexample input:
`JSON.parse` maps the object literal with a `null`-valued `"mapping"` key
and `"id": "x"` to exactly that object. -/
def jsonParseOracle (s : String) : Option Json :=
  if s = "\x7b\"mapping\": null, \"id\": \"x\"\x7d" then
    some (Json.obj [("mapping", Json.null), ("id", Json.str "x")])
  else
    none

/-- Embedding of `validateZipFile` (`src/services/import-service.ts`):
given the zip's entry-name list and the optional forced provider, accept
the archive or raise the "Invalid ZIP structure" structural error.  A
forced provider requires the exact entry name `conversations.json`;
auto-detection additionally requires the ChatGPT or Claude entry
combination. -/
def validateZipFile (fileNames : List String) (forcedProvider : Option String) :
    Except String Unit :=
  match forcedProvider with
  | some _ =>
    if fileNames.contains "conversations.json" then Except.ok ()
    else Except.error "Invalid ZIP structure"
  | none =>
    let hasConversationsJson := fileNames.contains "conversations.json"
    let hasUsersJson := fileNames.contains "users.json"
    let hasProjectsJson := fileNames.contains "projects.json"
    let isChatGPTFormat := hasConversationsJson && !hasUsersJson && !hasProjectsJson
    let isClaudeFormat := hasConversationsJson && hasUsersJson
    if !isChatGPTFormat && !isClaudeFormat then Except.error "Invalid ZIP structure"
    else Except.ok ()

/-- The display status of one conversation row. -/
inductive ChatStatus where
  | new : ChatStatus
  | updated : ChatStatus
  | imported : ChatStatus
  | ignored : ChatStatus
  deriving DecidableEq, Repr

/-- Embedding of the status computation inside `buildChatSummaries`
(`src/services/import-service.ts`, filter_and_select variant): the global
ignore map is its key list, the scan of existing conversations is a map
from UID to the stored `updateTime` (seconds). -/
def computeStatus (globalIgnores : List String)
    (existingMap : String → Option Int) (uid : String)
    (updatedAtSec : Int) : ChatStatus :=
  if globalIgnores.contains uid then
    ChatStatus.ignored
  else
    match existingMap uid with
    | some existingUpdateTime =>
      if existingUpdateTime < updatedAtSec then ChatStatus.updated
      else ChatStatus.imported
    | none => ChatStatus.new

/-- The pure status function the spec asks for (§4.5 / design note):
`ignored` if the UID is globally excluded; else `updated` if a
materialized record exists with an older stored time than the archive's;
else `imported` if a record exists; else `new`. -/
def statusSpec (exclusionSet : List String)
    (materializationLookup : String → Option Int) (uid : String)
    (archiveUpdatedAt : Int) : ChatStatus :=
  if exclusionSet.contains uid then ChatStatus.ignored
  else if (materializationLookup uid).any (fun t => t < archiveUpdatedAt) then
    ChatStatus.updated
  else if (materializationLookup uid).isSome then ChatStatus.imported
  else ChatStatus.new

/-- A chat summary row as built for the selection UI (`ChatSummary` in
`src/types.ts`, with the fields the claims use). -/
structure ChatSummary where
  uid : String
  title : String
  createdAt : Int
  updatedAt : Int
  messageCount : Nat
  keywordsSample : Option String
  status : ChatStatus
  deriving DecidableEq, Repr

/-- The provider-adapter capability: each accessor either returns a value
or fails (`Except.error ()` models a thrown exception inside the
`try` block of `buildChatSummaries`). -/
structure ProviderAdapter where
  getId : Json → Except Unit String
  getTitle : Json → Except Unit String
  getCreateTime : Json → Except Unit Int
  getUpdateTime : Json → Except Unit Int

/-- The body of the `for` loop in `buildChatSummaries` for one record:
`none` when any accessor throws (the record is skipped), otherwise the
summary pushed onto the list.  `getTitle(chat) || 'Untitled'` and
`getCreateTime(chat) || 0` replace falsy results. -/
def buildOneSummary (adapter : ProviderAdapter) (globalIgnores : List String)
    (existingMap : String → Option Int) (chat : Json) : Option ChatSummary :=
  match adapter.getId chat, adapter.getTitle chat,
      adapter.getCreateTime chat, adapter.getUpdateTime chat with
  | Except.ok uid, Except.ok title0, Except.ok createdAtSec, Except.ok updatedAtSec =>
    let title := if title0 = "" then "Untitled" else title0
    let status := computeStatus globalIgnores existingMap uid updatedAtSec
    some { uid := uid
           title := title
           createdAt := createdAtSec * 1000
           updatedAt := updatedAtSec * 1000
           messageCount := 0
           keywordsSample := none
           status := status }
  | _, _, _, _ => none

/-- Embedding of `buildChatSummaries`: per-record `try`/`catch`, a record
whose processing throws is dropped and the loop continues. -/
def buildChatSummaries (adapter : ProviderAdapter) (globalIgnores : List String)
    (existingMap : String → Option Int) (raw : List Json) : List ChatSummary :=
  raw.filterMap (buildOneSummary adapter globalIgnores existingMap)

/-- Embedding of `validateProviderMatch`
(`src/services/import-service.ts`): empty record lists pass; a `null`
first record makes the JS property access itself throw (`TypeError`),
otherwise the forced provider is checked against the shape of the first
record. -/
def validateProviderMatch (rawConversations : List Json)
    (forcedProvider : String) : Except String Unit :=
  match rawConversations with
  | [] => Except.ok ()
  | firstConversation :: _ =>
    match firstConversation with
    | Json.null => Except.error "TypeError"
    | _ =>
      let isChatGPT := firstConversation.hasField "mapping"
      let isClaude := firstConversation.hasField "chat_messages" ||
        firstConversation.hasField "name" || firstConversation.hasField "summary"
      if forcedProvider = "chatgpt" && !isChatGPT then
        Except.error "Provider Mismatch"
      else if forcedProvider = "claude" && !isClaude then
        Except.error "Provider Mismatch"
      else
        Except.ok ()

/-- `e` is `Except.ok`. -/
def exceptOk : Except String Unit → Bool
  | Except.ok _ => true
  | Except.error _ => false

/-- The write-relevant control flow of `handleZipFile`: validate the zip
structure, extract the raw conversations, run the provider-match
validation when a provider is forced, detect the provider otherwise; any
error aborts before the import step.  `writesFor` stands for the note
writes `processConversationsFromRaw` would perform, and an `ok` result
lists exactly the writes that occur, so an error means none occurred. -/
def handleZipPipeline (parse : String → Option Json)
    (entries : List (String × String)) (forcedProvider : Option String)
    (detectProvider : List Json → String) (writesFor : List Json → List String) :
    Except String (List String) :=
  match validateZipFile (entries.map Prod.fst) forcedProvider with
  | Except.error e => Except.error e
  | Except.ok () =>
    let rawConversations := extractRawConversationsFromZip parse entries
    match forcedProvider with
    | some p =>
      match validateProviderMatch rawConversations p with
      | Except.error e => Except.error e
      | Except.ok () =>
        if p = "unknown" then Except.error "Unknown provider"
        else Except.ok (writesFor rawConversations)
    | none =>
      let p := detectProvider rawConversations
      if p = "unknown" then Except.error "Unknown provider"
      else Except.ok (writesFor rawConversations)

/-- Sort keys of the selection modal. -/
inductive SortKey where
  | updatedAt : SortKey
  | createdAt : SortKey
  | title : SortKey
  deriving DecidableEq, Repr

/-- Sort directions of the selection modal. -/
inductive SortDir where
  | asc : SortDir
  | desc : SortDir
  deriving DecidableEq, Repr

/-- JS `s.includes(pat)`: `pat` occurs as a contiguous substring of `s`
(always true for the empty pattern). -/
def strContains (s pat : String) : Bool :=
  (List.range (s.data.length + 1)).any
    (fun i => pat.data.isPrefixOf (s.data.drop i))

/-- The keyword predicate of `applyFilters`
(`src/ui/pre-import-selection-modal.ts`): case-insensitive substring
match of the (already lowercased) keyword against title or sampled
keyword text. -/
def matchesKeyword (kw : String) (s : ChatSummary) : Bool :=
  strContains s.title.toLower kw ||
    strContains (s.keywordsSample.getD "").toLower kw

/-- The numeric sort value `(sortKey === 'updatedAt' ? a.updatedAt : a.createdAt) || 0`. -/
def dateSortValue (key : SortKey) (s : ChatSummary) : Int :=
  match key with
  | SortKey.updatedAt => s.updatedAt
  | _ => s.createdAt

/-- "a sorts no later than b" under the modal's comparator (title via
lexicographic comparison standing in for `localeCompare`, dates
numerically, direction flips the comparison). -/
def summaryLe (key : SortKey) (dir : SortDir) (a b : ChatSummary) : Bool :=
  match key with
  | SortKey.title =>
    match dir with
    | SortDir.asc => decide (a.title ≤ b.title)
    | SortDir.desc => decide (b.title ≤ a.title)
  | _ =>
    match dir with
    | SortDir.asc => decide (dateSortValue key a ≤ dateSortValue key b)
    | SortDir.desc => decide (dateSortValue key b ≤ dateSortValue key a)

/-- Insert into a sorted list (helper of the sort model). -/
def insertIntoSorted (le : ChatSummary → ChatSummary → Bool) (x : ChatSummary) :
    List ChatSummary → List ChatSummary
  | [] => [x]
  | y :: ys => if le x y then x :: y :: ys else y :: insertIntoSorted le x ys

/-- Model of `Array.prototype.sort` with the modal's comparator
(insertion sort; the claims only depend on the row list being a
reordering of the filtered rows, not on tie order). -/
def sortSummaries (le : ChatSummary → ChatSummary → Bool) :
    List ChatSummary → List ChatSummary
  | [] => []
  | x :: xs => insertIntoSorted le x (sortSummaries le xs)

/-- The in-memory state of `PreImportSelectionModal` (filter_and_select
variant): the summary universe, the JS `Set` of selected UIDs as a
`Finset`, the current keyword/sort controls, and the visible
(filtered) row list. -/
structure ModalState where
  allSummaries : List ChatSummary
  selection : Finset String
  keyword : String
  sortKey : SortKey
  sortDir : SortDir
  filtered : List ChatSummary

/-- Embedding of `applyFilters`: recompute `filtered` from the universe,
keyword and sort controls; nothing else changes. -/
def applyFilters (st : ModalState) : ModalState :=
  let base := st.allSummaries
  let res := if st.keyword = "" then base
    else base.filter (matchesKeyword st.keyword)
  { st with filtered := sortSummaries (summaryLe st.sortKey st.sortDir) res }

/-- The keyword-input handler: `this.keyword = v.trim().toLowerCase()`
followed by `applyFilters`. -/
def setKeyword (st : ModalState) (v : String) : ModalState :=
  applyFilters { st with keyword := v.trim.toLower }

/-- The sort-select handler: set key and direction, then `applyFilters`. -/
def setSortOrder (st : ModalState) (k : SortKey) (d : SortDir) : ModalState :=
  applyFilters { st with sortKey := k, sortDir := d }

/-- The UIDs of the currently visible (filtered) rows. -/
def visibleUids (st : ModalState) : Finset String :=
  (st.filtered.map ChatSummary.uid).toFinset

/-- The "Select all in view" handler: add every currently visible UID. -/
def selectAllInView (st : ModalState) : ModalState :=
  { st with selection := st.selection ∪ visibleUids st }

/-- The "Clear selection in view" handler: remove every currently visible
UID. -/
def clearSelectionInView (st : ModalState) : ModalState :=
  { st with selection := st.selection \ visibleUids st }

/-- The "Select all (all chats)" handler: a fresh set of every summary
UID, with no exclusion re-applied. -/
def selectAllGlobal (st : ModalState) : ModalState :=
  { st with selection := (st.allSummaries.map ChatSummary.uid).toFinset }

/-- The "Clear all" handler: the empty set. -/
def clearAllSelection (st : ModalState) : ModalState :=
  { st with selection := ∅ }

/-- The constructor's initial selection: every UID in the summary list. -/
def initSelection (summaries : List ChatSummary) : Finset String :=
  (summaries.map ChatSummary.uid).toFinset

/-- Modelled from the spec: the body of `refreshGlobalIgnores` (the
exclusion pass the filter_and_select modal runs once in `onOpen`, right
after fetching the Global Exclusion Set) is not among the sources — only
its call sites are.  Per §4.3, it removes every UID present in the
exclusion set from the current selection. -/
def applyGlobalExclusion (selection : Finset String)
    (globalIgnores : List String) : Finset String :=
  selection \ globalIgnores.toFinset

/-- The selection-state initialization sequence: select all summaries
(constructor), then apply the fetched Global Exclusion Set once
(`onOpen`). -/
def openModalSelection (summaries : List ChatSummary)
    (globalIgnores : List String) : Finset String :=
  applyGlobalExclusion (initSelection summaries) globalIgnores

/-- A per-UID materialization record (`FileMaterialisedMeta` in
`src/types.ts`, restricted to the fields the classifier reads). -/
structure FileMaterialisedMeta where
  contentHash : String
  updatedAt : Int
  deriving DecidableEq, Repr

/-- A reconciliation plan action. -/
inductive PlanAction where
  | NEW : PlanAction
  | UPDATE : PlanAction
  | SKIP : PlanAction
  deriving DecidableEq, Repr

/-- Modelled from the spec: the NEW/UPDATE/SKIP classifier lives in
`ConversationProcessor`, which is not among the sources — `src/` only has
its caller and the `MaterialisedStore` it reads.  Per §4.5: no record →
NEW; record and (fresh hash differs or archive `updatedAt` strictly
greater) → UPDATE; otherwise SKIP with reason "hash equal". -/
def classify (record : Option FileMaterialisedMeta) (freshHash : String)
    (archiveUpdatedAt : Int) : PlanAction × Option String :=
  match record with
  | none => (PlanAction.NEW, none)
  | some r =>
    if freshHash ≠ r.contentHash ∨ r.updatedAt < archiveUpdatedAt then
      (PlanAction.UPDATE, none)
    else
      (PlanAction.SKIP, some "hash equal")

/-- One selected conversation as the reconciler sees it: its UID, its
canonicalized transcript (the hashing input) and the archive's update
time. -/
structure ArchiveItem where
  uid : String
  canonicalTranscript : String
  updatedAt : Int
  deriving DecidableEq, Repr

/-- Modelled from the spec: the Import Executor's effect on the
materialization store for one plan item — a NEW/UPDATE item writes the
note and then stores `{contentHash := fresh hash, updatedAt := archive
updatedAt}` for its UID; a SKIP item writes nothing (§3, §4.6). -/
def executeItem (hashFn : String → String)
    (store : String → Option FileMaterialisedMeta) (item : ArchiveItem) :
    String → Option FileMaterialisedMeta :=
  match classify (store item.uid) (hashFn item.canonicalTranscript) item.updatedAt with
  | (PlanAction.SKIP, _) => store
  | _ => fun u =>
    if u = item.uid then
      some { contentHash := hashFn item.canonicalTranscript,
             updatedAt := item.updatedAt }
    else store u

/-- The materialization store after running the whole pipeline over the
selected items. -/
def runImport (hashFn : String → String)
    (store : String → Option FileMaterialisedMeta) :
    List ArchiveItem → (String → Option FileMaterialisedMeta)
  | [] => store
  | item :: rest => runImport hashFn (executeItem hashFn store item) rest

/-- A deterministic one-way string hash (stand-in for the design's sha1;
only determinism and functionality in its input matter to the claims). -/
def hashString (s : String) : Nat :=
  s.data.foldl (fun h c => (h * 31 + c.toNat) % 4294967296) 5381

/-- A raw conversation as the Identity Resolver sees it. -/
structure RawConversation where
  nativeId : Option String
  exportPath : String
  createdAt : Int
  title : String
  firstMessageContent : String
  deriving DecidableEq, Repr

/-- Modelled from the spec: the derived-UID fallback (§4.2 of the design
document: `uid = sha1(sourceRef.exportPath + createdAt + title +
firstMessageHash)`) is not among the sources — `buildChatSummaries` only
calls the adapter's `getId`.  The hash is over the concatenation of
source archive path, creation timestamp, title, and a hash of the first
message's content. -/
def deriveFallbackUID (r : RawConversation) : String :=
  toString (hashString (r.exportPath ++ toString r.createdAt ++ r.title ++
    toString (hashString r.firstMessageContent)))

/-- Modelled from the spec: `resolve(record, adapter) -> UID` (§4.2),
preferring the adapter's native id and deriving the deterministic
fallback when it is absent or empty. -/
def resolveUID (r : RawConversation) : String :=
  match r.nativeId with
  | some nid => if nid = "" then deriveFallbackUID r else nid
  | none => deriveFallbackUID r

/-- JS `s.replace(pat, rep)` with a plain-string pattern: replace the
first occurrence only. -/
def replaceFirst (s pat rep : String) : String :=
  match (List.range (s.data.length + 1)).find?
      (fun i => pat.data.isPrefixOf (s.data.drop i)) with
  | some i => ⟨s.data.take i ++ rep.data ++ s.data.drop (i + pat.data.length)⟩
  | none => s

/-- The candidate built inside the `while` loop of
`ReportWriter.writeReport` for a given counter value. -/
def reportCandidate (folderPath baseFileName : String) (counter : Nat) : String :=
  folderPath ++ "/" ++ replaceFirst baseFileName " - import report.md" "" ++
    "-" ++ toString counter ++ " - import report.md"

/-- Embedding of the `while (await exists(logFilePath))` loop of
`ReportWriter.writeReport`, with explicit fuel (the JS loop has none; it
terminates whenever some candidate is free). -/
def findReportPathLoop (ex : String → Bool) (folderPath baseFileName : String) :
    Nat → Nat → String → String
  | 0, _, current => current
  | fuel + 1, counter, current =>
    if ex current then
      findReportPathLoop ex folderPath baseFileName fuel (counter + 1)
        (reportCandidate folderPath baseFileName counter)
    else current

/-- The log file path `writeReport` settles on: start from the base
report filename, then append `-2`, `-3`, … while the adapter's `exists`
check returns true. -/
def chooseReportPath (ex : String → Bool) (folderPath baseFileName : String)
    (fuel : Nat) : String :=
  findReportPathLoop ex folderPath baseFileName fuel 2
    (folderPath ++ "/" ++ baseFileName)

/-- Some candidate inspected within `fuel` iterations is free (the exact
condition under which the JS loop terminates within that many
iterations). -/
def freeWithin (ex : String → Bool) (folderPath baseFileName : String) :
    Nat → Nat → String → Bool
  | 0, _, current => !(ex current)
  | fuel + 1, counter, current =>
    !(ex current) || freeWithin ex folderPath baseFileName fuel (counter + 1)
      (reportCandidate folderPath baseFileName counter)

/-- A concrete fragment of `JSON.parse` used to exercise the pipeline: it
records that the array literal holding one object with a `"name"` key
parses to exactly that array. -/
def jsonParseOracle2 (s : String) : Option Json :=
  if s = "[\x7b\"name\": \"n\"\x7d]" then
    some (Json.arr [Json.obj [("name", Json.str "n")]])
  else
    none

/-- A minimal summary row used in concrete instantiations. -/
def sampleSummary (u : String) : ChatSummary :=
  { uid := u, title := u, createdAt := 0, updatedAt := 0, messageCount := 0,
    keywordsSample := none, status := ChatStatus.new }

/-- A minimal modal state used in concrete instantiations. -/
def sampleModalState : ModalState :=
  { allSummaries := [sampleSummary "A"], selection := {"A"}, keyword := "",
    sortKey := SortKey.updatedAt, sortDir := SortDir.desc,
    filtered := [sampleSummary "A"] }

/-- C2 counterexample input: the object literal with a `null`-valued
`mapping` field and an `id` field. -/
def c2Text : String := "\x7b\"mapping\": null, \"id\": \"x\"\x7d"

/-- A concrete archive item used in concrete instantiations. -/
def sampleItem : ArchiveItem := ⟨"u", "tr", 5⟩

/-- A concrete raw conversation carrying a native id. -/
def sampleRawNative : RawConversation := ⟨some "native", "p", 1, "t", "m"⟩

/-- A concrete raw conversation without a native id. -/
def sampleRawDerived : RawConversation := ⟨none, "p", 1, "t", "m"⟩

end Nexus

namespace Nexus

/-- C2 — counterexample.  For the byte sequence `{"mapping": null, "id":
"x"}` (strict JSON parsing succeeds, the value is a non-array object
that *has* a `mapping` field and an `id` field), the code returns the
empty sequence, while the claimed resolution order returns the
single-element sequence containing the whole object: the code tests the
fields for JS truthiness, not presence. -/
theorem c2_truthiness_counterexample :
    extractRawConversationsFromText jsonParseOracle c2Text = [] ∧
    extractRecordsSpec jsonParseOracle c2Text =
      [Json.obj [("mapping", Json.null), ("id", Json.str "x")]] := by
  constructor <;> rfl

/-- C2 (amended) — the archive normalizer follows the claimed resolution
order with the single-object fallback guarded by *truthy* `mapping` and
`id`/`conversation_id` values: for every parse oracle and byte sequence,
the code equals the amended first-match-wins specification. -/
theorem c2_resolution_order_amended (parse : String → Option Json)
    (text : String) :
    extractRawConversationsFromText parse text =
      extractRecordsSpecAmended parse text := by
  unfold extractRawConversationsFromText extractRecordsSpecAmended
  rfl

/-- C3 — the display status computed when building a summary follows the
fixed precedence `ignored` (globally excluded) > `updated` (existing
record with strictly older stored time) > `imported` (existing record) >
`new`; in particular a UID both globally excluded and already
materialized is labeled `ignored`. -/
theorem c3_status_precedence (globalIgnores : List String)
    (existingMap : String → Option Int) (uid : String) (updatedAtSec : Int) :
    computeStatus globalIgnores existingMap uid updatedAtSec =
      statusSpec globalIgnores existingMap uid updatedAtSec ∧
    (globalIgnores.contains uid = true → (existingMap uid).isSome = true →
      computeStatus globalIgnores existingMap uid updatedAtSec =
        ChatStatus.ignored) := by
  constructor
  · unfold computeStatus statusSpec
    by_cases hig : uid ∈ globalIgnores
    · simp [hig]
    · cases hmap : existingMap uid with
      | none => simp [hig]
      | some t =>
        by_cases hlt : t < updatedAtSec
        · simp [hig, hlt]
        · simp [hig, hlt]
  · intro hig _
    have hmem : uid ∈ globalIgnores := by simpa using hig
    unfold computeStatus
    simp [hmem]

/-- C3 witness. -/
theorem c3_status_precedence_witness :
    computeStatus ["u"] (fun _ => some 3) "u" 7 = ChatStatus.ignored :=
  (c3_status_precedence ["u"] (fun _ => some 3) "u" 7).2 (by decide) (by simp)

/-- C9 — building chat summaries is a total function whose output length
never exceeds the input length; a record on which an accessor or the
status computation fails contributes nothing and processing of the
surrounding records continues unchanged, and a record on which every
accessor succeeds still yields its summary in place. -/
theorem c9_summaries_drop_malformed (adapter : ProviderAdapter)
    (globalIgnores : List String) (existingMap : String → Option Int)
    (raw raw₁ raw₂ : List Json) (c : Json) :
    (buildChatSummaries adapter globalIgnores existingMap raw).length ≤
      raw.length ∧
    buildChatSummaries adapter globalIgnores existingMap (raw₁ ++ c :: raw₂) =
      buildChatSummaries adapter globalIgnores existingMap raw₁ ++
        (match buildOneSummary adapter globalIgnores existingMap c with
         | some s => [s]
         | none => []) ++
        buildChatSummaries adapter globalIgnores existingMap raw₂ := by
  constructor
  · exact List.length_filterMap_le _ _
  · unfold buildChatSummaries
    rw [List.filterMap_append, List.filterMap_cons]
    cases buildOneSummary adapter globalIgnores existingMap c with
    | none => simp
    | some s => simp

/-- C4 — at selection-state initialization every summary UID is selected
and the Global Exclusion Set is then removed exactly once (so universe
`{A,B,C}` with exclusion `{B}` yields `{A,C}`); the later explicit
"select all (all chats)" action selects every summary UID with no
exclusion re-applied, and "clear all" empties the selection. -/
theorem c4_init_selection_exclusion :
    (∀ sA sB sC : ChatSummary, sA.uid = "A" → sB.uid = "B" → sC.uid = "C" →
      openModalSelection [sA, sB, sC] ["B"] = ({"A", "C"} : Finset String)) ∧
    (∀ (summaries : List ChatSummary) (globalIgnores : List String) (u : String),
      u ∈ openModalSelection summaries globalIgnores ↔
        (u ∈ summaries.map ChatSummary.uid ∧ u ∉ globalIgnores)) ∧
    (∀ (st : ModalState) (u : String), u ∈ st.allSummaries.map ChatSummary.uid →
      u ∈ (selectAllGlobal st).selection) ∧
    (∀ st : ModalState, (clearAllSelection st).selection = ∅) := by
  refine ⟨?_, ?_, ?_, ?_⟩
  · intro sA sB sC hA hB hC
    unfold openModalSelection applyGlobalExclusion initSelection
    simp only [List.map_cons, List.map_nil, hA, hB, hC]
    decide
  · intro summaries globalIgnores u
    unfold openModalSelection applyGlobalExclusion initSelection
    simp [Finset.mem_sdiff, List.mem_toFinset]
  · intro st u hu
    unfold selectAllGlobal
    simpa [List.mem_toFinset] using hu
  · intro st
    rfl

/-- C4 witness. -/
theorem c4_init_selection_exclusion_witness :
    openModalSelection [sampleSummary "A", sampleSummary "B", sampleSummary "C"]
      ["B"] = ({"A", "C"} : Finset String) :=
  c4_init_selection_exclusion.1 (sampleSummary "A") (sampleSummary "B")
    (sampleSummary "C") rfl rfl rfl

/-- C5 — changing the keyword filter or the sort order leaves the
selection set unchanged (only the visible row list changes); "select all
in view" adds exactly the visible UIDs, "clear selection in view"
removes exactly the visible UIDs, and the membership of every UID
outside the visible set is unchanged by either. -/
theorem c5_filter_sort_frame (st : ModalState) (v : String) (k : SortKey)
    (d : SortDir) (u : String) :
    (setKeyword st v).selection = st.selection ∧
    (setSortOrder st k d).selection = st.selection ∧
    (selectAllInView st).selection = st.selection ∪ visibleUids st ∧
    (clearSelectionInView st).selection = st.selection \ visibleUids st ∧
    (u ∉ visibleUids st →
      ((u ∈ (selectAllInView st).selection ↔ u ∈ st.selection) ∧
        (u ∈ (clearSelectionInView st).selection ↔ u ∈ st.selection))) := by
  refine ⟨rfl, rfl, rfl, rfl, ?_⟩
  intro hu
  constructor
  · simp [selectAllInView, hu]
  · simp [clearSelectionInView, hu]

/-- C6 — counterexample.  An archive whose `conversations.json` sits only
in a nested subfolder is rejected by the structural pre-check
`validateZipFile` (in both auto-detect and forced-provider modes), even
though the extraction step's locate regex does match that nested entry:
the pre-check tests exact root-level membership of the literal name
`conversations.json`, not a case-insensitive any-depth match. -/
theorem c6_nested_rejected_counterexample :
    validateZipFile ["export/conversations.json"] none =
      Except.error "Invalid ZIP structure" ∧
    validateZipFile ["export/conversations.json"] (some "chatgpt") =
      Except.error "Invalid ZIP structure" ∧
    findConversationsKey ["export/conversations.json"] =
      some "export/conversations.json" := by
  refine ⟨rfl, rfl, ?_⟩
  rfl

/-- C6 (amended) — the structural pre-check accepts an archive exactly
when its entry list contains the literal root-level name
`conversations.json` (and, in auto-detection mode, the entries match the
ChatGPT or Claude combination); when it fails, the whole operation fails
with that structural error and no write is attempted.  Only the later
extraction step matches `conversations.json` at any depth
case-insensitively, and it yields an empty record sequence, not an
error, when no entry matches. -/
theorem c6_root_exact_precheck_amended (fileNames : List String) (p : String)
    (parse : String → Option Json) (entries : List (String × String))
    (forced : Option String) (detect : List Json → String)
    (writesFor : List Json → List String) (e : String) :
    (exceptOk (validateZipFile fileNames (some p)) =
      fileNames.contains "conversations.json") ∧
    (exceptOk (validateZipFile fileNames none) =
      (fileNames.contains "conversations.json" &&
        ((!fileNames.contains "users.json" && !fileNames.contains "projects.json") ||
          fileNames.contains "users.json"))) ∧
    (validateZipFile (entries.map Prod.fst) forced = Except.error e →
      handleZipPipeline parse entries forced detect writesFor =
        Except.error e) ∧
    (findConversationsKey (entries.map Prod.fst) = none →
      extractRawConversationsFromZip parse entries = []) ∧
    convoKeyMatches "export/conversations.json" = true := by
  refine ⟨?_, ?_, ?_, ?_, ?_⟩
  · unfold validateZipFile exceptOk
    cases hc : fileNames.contains "conversations.json" <;> simp [hc]
  · unfold validateZipFile exceptOk
    cases hc : fileNames.contains "conversations.json" <;>
      cases hu : fileNames.contains "users.json" <;>
      cases hp : fileNames.contains "projects.json" <;> simp [hc, hu, hp]
  · intro h
    unfold handleZipPipeline
    rw [h]
  · intro h
    unfold extractRawConversationsFromZip
    rw [h]
  · rfl

/-- C6 (amended) witness. -/
theorem c6_root_exact_precheck_amended_witness :
    handleZipPipeline jsonParseOracle [("export/conversations.json", "x")] none
      (fun _ => "chatgpt") (fun _ => []) =
      Except.error "Invalid ZIP structure" :=
  (c6_root_exact_precheck_amended [] "chatgpt" jsonParseOracle
    [("export/conversations.json", "x")] none (fun _ => "chatgpt") (fun _ => [])
    "Invalid ZIP structure").2.2.1 (by rfl)

/-- C7 — with a forced provider whose shape the first extracted record
contradicts (forced chatgpt and no `mapping` field, or forced claude and
none of the claude-shape fields), the pipeline stops with the Provider
Mismatch error and performs no note write; an empty record list raises
no error from the forced-provider check. -/
theorem c7_provider_mismatch_aborts (parse : String → Option Json)
    (entries : List (String × String)) (detect : List Json → String)
    (writesFor : List Json → List String) (first : Json) (rest : List Json) :
    (validateZipFile (entries.map Prod.fst) (some "chatgpt") = Except.ok () →
      extractRawConversationsFromZip parse entries = first :: rest →
      first.isObj = true → first.hasField "mapping" = false →
      handleZipPipeline parse entries (some "chatgpt") detect writesFor =
        Except.error "Provider Mismatch") ∧
    (validateZipFile (entries.map Prod.fst) (some "claude") = Except.ok () →
      extractRawConversationsFromZip parse entries = first :: rest →
      first.isObj = true → first.hasField "chat_messages" = false →
      first.hasField "name" = false → first.hasField "summary" = false →
      handleZipPipeline parse entries (some "claude") detect writesFor =
        Except.error "Provider Mismatch") ∧
    (∀ p, validateProviderMatch [] p = Except.ok ()) := by
  refine ⟨?_, ?_, fun _ => rfl⟩
  · intro hv hx hobj hmap
    cases first with
    | null => simp [Json.isObj] at hobj
    | bool b => simp [Json.isObj] at hobj
    | num n => simp [Json.isObj] at hobj
    | str s => simp [Json.isObj] at hobj
    | arr xs => simp [Json.isObj] at hobj
    | obj fs =>
      unfold handleZipPipeline
      rw [hv]
      simp only [hx]
      simp [validateProviderMatch, hmap]
  · intro hv hx hobj hm1 hm2 hm3
    cases first with
    | null => simp [Json.isObj] at hobj
    | bool b => simp [Json.isObj] at hobj
    | num n => simp [Json.isObj] at hobj
    | str s => simp [Json.isObj] at hobj
    | arr xs => simp [Json.isObj] at hobj
    | obj fs =>
      unfold handleZipPipeline
      rw [hv]
      simp only [hx]
      simp [validateProviderMatch, hm1, hm2, hm3]

/-- C7 witness. -/
theorem c7_provider_mismatch_aborts_witness :
    handleZipPipeline jsonParseOracle2
      [("conversations.json", "[\x7b\"name\": \"n\"\x7d]")] (some "chatgpt")
      (fun _ => "chatgpt") (fun _ => ["write"]) =
      Except.error "Provider Mismatch" :=
  (c7_provider_mismatch_aborts jsonParseOracle2
    [("conversations.json", "[\x7b\"name\": \"n\"\x7d]")] (fun _ => "chatgpt")
    (fun _ => ["write"]) (Json.obj [("name", Json.str "n")]) []).1
    (by rfl) (by rfl) (by rfl) (by rfl)

/-- C5 witness. -/
theorem c5_filter_sort_frame_witness :
    ("x" ∈ (selectAllInView sampleModalState).selection ↔
      "x" ∈ sampleModalState.selection) ∧
    ("x" ∈ (clearSelectionInView sampleModalState).selection ↔
      "x" ∈ sampleModalState.selection) :=
  (c5_filter_sort_frame sampleModalState "q" SortKey.title SortDir.asc
    "x").2.2.2.2 (by decide)

/-- Any SKIP result of the classifier carries the reason "hash equal". -/
theorem classify_skip_inv (record : Option FileMaterialisedMeta)
    (freshHash : String) (t : Int) (x : Option String)
    (h : classify record freshHash t = (PlanAction.SKIP, x)) :
    x = some "hash equal" := by
  cases record with
  | none => simp [classify] at h
  | some r =>
    simp only [classify] at h
    by_cases hc : freshHash ≠ r.contentHash ∨ r.updatedAt < t
    · rw [if_pos hc] at h
      simp at h
    · rw [if_neg hc] at h
      exact (Prod.ext_iff.mp h).2.symm

/-- A record holding exactly the fresh hash and the archive update time
classifies as SKIP. -/
theorem classify_fresh (h : String) (t : Int) :
    classify (some { contentHash := h, updatedAt := t }) h t =
      (PlanAction.SKIP, some "hash equal") := by
  unfold classify
  simp

/-- After executing one plan item, re-classifying the same item against
the updated store yields SKIP. -/
theorem executeItem_self (hashFn : String → String)
    (store : String → Option FileMaterialisedMeta) (item : ArchiveItem) :
    classify (executeItem hashFn store item item.uid)
      (hashFn item.canonicalTranscript) item.updatedAt =
      (PlanAction.SKIP, some "hash equal") := by
  unfold executeItem
  rcases hcl : classify (store item.uid) (hashFn item.canonicalTranscript)
    item.updatedAt with ⟨act, reason⟩
  cases act with
  | SKIP =>
    simp only [hcl]
    rw [classify_skip_inv _ _ _ _ hcl]
  | NEW =>
    simp only [hcl]
    simp only [if_true]
    exact classify_fresh _ _
  | UPDATE =>
    simp only [hcl]
    simp only [if_true]
    exact classify_fresh _ _

/-- Executing a plan item leaves every other UID's record untouched. -/
theorem executeItem_other (hashFn : String → String)
    (store : String → Option FileMaterialisedMeta) (item : ArchiveItem)
    (u : String) (h : u ≠ item.uid) :
    executeItem hashFn store item u = store u := by
  unfold executeItem
  rcases hcl : classify (store item.uid) (hashFn item.canonicalTranscript)
    item.updatedAt with ⟨act, reason⟩
  cases act <;> simp only [hcl] <;> simp [h]

/-- Running the import over items whose UIDs avoid `u` leaves `u`'s
record untouched. -/
theorem runImport_other (hashFn : String → String)
    (items : List ArchiveItem) :
    ∀ (store : String → Option FileMaterialisedMeta) (u : String),
      u ∉ items.map ArchiveItem.uid → runImport hashFn store items u = store u := by
  induction items with
  | nil => intro store u _; rfl
  | cons item rest ih =>
    intro store u h
    simp only [List.map_cons, List.mem_cons] at h
    push_neg at h
    unfold runImport
    rw [ih _ _ h.2, executeItem_other _ _ _ _ h.1]

/-- After a full run, every selected item (with pairwise-distinct UIDs)
re-classifies as SKIP against the resulting store. -/
theorem runImport_idempotent (hashFn : String → String)
    (items : List ArchiveItem) :
    ∀ store : String → Option FileMaterialisedMeta,
      (items.map ArchiveItem.uid).Nodup →
      ∀ item ∈ items,
        classify (runImport hashFn store items item.uid)
          (hashFn item.canonicalTranscript) item.updatedAt =
          (PlanAction.SKIP, some "hash equal") := by
  induction items with
  | nil => intro store _ item hmem; cases hmem
  | cons it rest ih =>
    intro store hnd item hmem
    simp only [List.map_cons, List.nodup_cons] at hnd
    rcases List.mem_cons.mp hmem with heq | hrest
    · subst heq
      unfold runImport
      rw [runImport_other hashFn rest _ _ hnd.1]
      exact executeItem_self hashFn store item
    · exact ih (executeItem hashFn store it) hnd.2 item hrest

/-- C1 — the reconciliation classification is NEW when no materialization
record is found, UPDATE when a record is found and the fresh canonical
hash differs or the archive's `updatedAt` is strictly greater than the
stored one, and otherwise SKIP with reason "hash equal"; consequently a
second run of the same archive (distinct UIDs, no vault changes in
between) classifies every selected item as SKIP. -/
theorem c1_classification_and_idempotence (hashFn : String → String)
    (store : String → Option FileMaterialisedMeta) (items : List ArchiveItem)
    (freshHash : String) (t : Int) (r : FileMaterialisedMeta) :
    classify none freshHash t = (PlanAction.NEW, none) ∧
    (freshHash ≠ r.contentHash ∨ r.updatedAt < t →
      classify (some r) freshHash t = (PlanAction.UPDATE, none)) ∧
    (freshHash = r.contentHash → t ≤ r.updatedAt →
      classify (some r) freshHash t = (PlanAction.SKIP, some "hash equal")) ∧
    ((items.map ArchiveItem.uid).Nodup →
      ∀ item ∈ items,
        classify (runImport hashFn store items item.uid)
          (hashFn item.canonicalTranscript) item.updatedAt =
          (PlanAction.SKIP, some "hash equal")) := by
  refine ⟨rfl, ?_, ?_, ?_⟩
  · intro hc
    simp only [classify]
    rw [if_pos hc]
  · intro h1 h2
    simp only [classify]
    rw [if_neg (by push_neg; exact ⟨h1, h2⟩)]
  · exact runImport_idempotent hashFn items store

/-- C1 witness. -/
theorem c1_classification_and_idempotence_witness :
    classify (runImport (fun s => s) (fun _ => none) [sampleItem] "u")
      "tr" 5 = (PlanAction.SKIP, some "hash equal") :=
  (c1_classification_and_idempotence (fun s => s) (fun _ => none)
    [sampleItem] "h" 0 ⟨"h", 0⟩).2.2.2 (by decide)
    sampleItem (List.mem_singleton_self _)

/-- C8 — the Identity Resolver returns the adapter's native id when one
is present and non-empty; when it is absent or empty, the UID is the
deterministic fallback hash over source archive path, creation
timestamp, title and the hash of the first message's content, so records
agreeing on those components resolve to the identical UID. -/
theorem c8_uid_resolution (r r2 : RawConversation) (nid : String) :
    (r.nativeId = some nid → nid ≠ "" → resolveUID r = nid) ∧
    (r.nativeId = none ∨ r.nativeId = some "" →
      resolveUID r = deriveFallbackUID r) ∧
    (r.exportPath = r2.exportPath → r.createdAt = r2.createdAt →
      r.title = r2.title → r.firstMessageContent = r2.firstMessageContent →
      deriveFallbackUID r = deriveFallbackUID r2) := by
  refine ⟨?_, ?_, ?_⟩
  · intro h hne
    unfold resolveUID
    rw [h]
    simp [hne]
  · intro h
    unfold resolveUID
    rcases h with h | h <;> rw [h] <;> simp
  · intro h1 h2 h3 h4
    unfold deriveFallbackUID
    rw [h1, h2, h3, h4]

/-- C8 witness. -/
theorem c8_uid_resolution_witness :
    resolveUID sampleRawNative = "native" ∧
    resolveUID sampleRawDerived = deriveFallbackUID sampleRawDerived :=
  ⟨(c8_uid_resolution sampleRawNative sampleRawDerived "native").1 rfl
      (by decide),
    (c8_uid_resolution sampleRawDerived sampleRawNative "native").2.1
      (Or.inl rfl)⟩

/-- If some candidate inspected within the fuel bound is free, the loop
settles on a path the exists-check rejects. -/
theorem findReportPathLoop_free (ex : String → Bool)
    (folderPath baseFileName : String) :
    ∀ (fuel counter : Nat) (current : String),
      freeWithin ex folderPath baseFileName fuel counter current = true →
      ex (findReportPathLoop ex folderPath baseFileName fuel counter current) =
        false := by
  intro fuel
  induction fuel with
  | zero =>
    intro counter current h
    unfold freeWithin at h
    unfold findReportPathLoop
    simpa using h
  | succ n ih =>
    intro counter current h
    unfold freeWithin at h
    unfold findReportPathLoop
    cases hex : ex current with
    | false => simp [hex]
    | true =>
      simp only [hex, Bool.not_true, Bool.false_or] at h
      simp only [hex, if_true]
      exact ih _ _ h

/-- C10 — whenever the suffix-search loop terminates (some candidate
within the fuel bound is free), the chosen log file path is one the
adapter's exists-check rejects, so no pre-existing file is ever
overwritten by the report write; and when the base report filename is
itself free it is chosen unchanged. -/
theorem c10_report_path_never_overwrites (ex : String → Bool)
    (folderPath baseFileName : String) (fuel : Nat)
    (h : freeWithin ex folderPath baseFileName fuel 2
      (folderPath ++ "/" ++ baseFileName) = true) :
    ex (chooseReportPath ex folderPath baseFileName fuel) = false ∧
    (∀ q, ex q = true → q ≠ chooseReportPath ex folderPath baseFileName fuel) ∧
    (ex (folderPath ++ "/" ++ baseFileName) = false →
      chooseReportPath ex folderPath baseFileName fuel =
        folderPath ++ "/" ++ baseFileName) := by
  have hfree : ex (chooseReportPath ex folderPath baseFileName fuel) = false :=
    findReportPathLoop_free ex folderPath baseFileName fuel 2 _ h
  refine ⟨hfree, ?_, ?_⟩
  · intro q hq heq
    rw [heq, hfree] at hq
    exact absurd hq (by decide)
  · intro hbase
    cases fuel with
    | zero => rfl
    | succ n =>
      unfold chooseReportPath findReportPathLoop
      simp [hbase]

/-- C10 witness. -/
theorem c10_report_path_never_overwrites_witness :
    (fun s => s == "R/b - import report.md")
      (chooseReportPath (fun s => s == "R/b - import report.md") "R"
        "b - import report.md" 2) = false :=
  (c10_report_path_never_overwrites (fun s => s == "R/b - import report.md")
    "R" "b - import report.md" 2 (by rfl)).1

end Nexus
